import Mathlib

/-!
# Littlefs internal-flash port (`Lfs_Port.c`, `Lfs_Port.h`)

A shallow embedding of the five entry points of the block-device adapter:
`lfs_internal_flash_init`, `lfs_internal_flash_read`, `lfs_internal_flash_prog`,
`lfs_internal_flash_erase` and `lfs_internal_flash_sync`.

* The 32-bit address space is a byte map `Nat → Nat`; `uint32_t` arithmetic is
  written with an explicit `% U32`.
* Calls into the vendor flash controller library are logged, in order, in
  `World.calls`; the CPU stores made by the read loop are logged in
  `World.stores`.
* The two loops take a fuel argument; `Result.outOfFuel` means the loop was
  still running when the fuel was used up.
-/

namespace LfsPort

/-! ## Constants -/

/-- Number of values of a `uint32_t`. -/
def U32 : Nat := 4294967296

/-- Modelled from the spec: the success status `LFS_ERR_OK` is declared by the
file-system library, outside this repository. -/
def LFS_ERR_OK : Int := 0

/-- `#define FLASH_START_ADDR 0x08000000` of `Lfs_Port.h`. -/
def FLASH_START_ADDR : Nat := 0x08000000

/-- `#define FLASH_SECTOR_NUM 15` of `Lfs_Port.h`. -/
def FLASH_SECTOR_NUM : Nat := 15

/-- Modelled from the spec: the sector size constant comes from the vendor
headers (the define in `Lfs_Port.h` is commented out); its value there and in
the specification is 4096. -/
def FLASH_SECTOR_SIZE : Nat := 4096

/-! ## Data model -/

/-- Modelled from the spec: the status type of the vendor controller library;
everything but `HAL_OK` is a failure. -/
inductive HalStatus where
  | HAL_OK
  | HAL_ERROR
  | HAL_BUSY
  | HAL_TIMEOUT
  deriving DecidableEq, Repr

/-- Modelled from the spec: the programming modes of the vendor library; the
port only names page mode. -/
inductive ProgramType where
  | FLASH_TYPEPROGRAM_PAGE
  deriving DecidableEq, Repr

/-- Modelled from the spec: the erase modes of the vendor library; `unset` is
the zero the request is initialised with. -/
inductive EraseType where
  | unset
  | FLASH_TYPEERASE_SECTORERASE
  deriving DecidableEq, Repr

/-- Modelled from the spec: the erase request record of the vendor library,
reduced to the fields that `lfs_internal_flash_erase` fills. -/
structure FLASH_EraseInitTypeDef where
  TypeErase : EraseType
  SectorAddress : Nat
  NbSectors : Nat
  deriving DecidableEq, Repr

/-- One call that leaves the port: the four controller entry points (program
and erase together with the status they reported) and the fatal handler. -/
inductive Call where
  | HAL_FLASH_Unlock
  | HAL_FLASH_Lock
  | HAL_FLASH_Program (ty : ProgramType) (address : Nat) (src : Nat) (result : HalStatus)
  | HAL_FLASHEx_Erase (req : FLASH_EraseInitTypeDef) (result : HalStatus)
  | APP_ErrorHandler
  deriving DecidableEq, Repr

/-- What a function-pointer field of the configuration record holds. -/
inductive Handler where
  | null
  | lfs_internal_flash_read
  | lfs_internal_flash_prog
  | lfs_internal_flash_erase
  | lfs_internal_flash_sync
  | other (address : Nat)
  deriving DecidableEq, Repr

/-- Modelled from the spec: the configuration record `struct lfs_config` is
declared by the file-system library. It has the eleven fields the port
assigns and, beside them, fields the port never touches. -/
structure lfs_config where
  context : Nat
  read : Handler
  prog : Handler
  erase : Handler
  sync : Handler
  read_size : Nat
  prog_size : Nat
  block_size : Nat
  block_count : Nat
  block_cycles : Int
  cache_size : Nat
  lookahead_size : Nat
  read_buffer : Nat
  prog_buffer : Nat
  lookahead_buffer : Nat
  name_max : Nat
  file_max : Nat
  attr_max : Nat
  deriving DecidableEq, Repr

/-- Everything outside the configuration record: the bytes of the address
space, the calls made so far, and the byte addresses stored to so far. -/
structure World where
  mem : Nat → Nat
  calls : List Call
  stores : List Nat

/-- How a call of one of the block-device operations ends. -/
inductive Result where
  | returned (status : Int) (w : World)
  | assertFailed (w : World)
  | fatal (w : World)
  | divByZero (w : World)
  | outOfFuel

/-! ## The controller library and the fatal handler -/

/-- Modelled from the spec: `HAL_FLASH_Unlock` of the vendor library opens the
controller's critical section; it touches no flash byte. -/
def HAL_FLASH_Unlock (w : World) : World :=
  { w with calls := w.calls ++ [Call.HAL_FLASH_Unlock] }

/-- Modelled from the spec: `HAL_FLASH_Lock` of the vendor library closes the
critical section; it touches no flash byte. -/
def HAL_FLASH_Lock (w : World) : World :=
  { w with calls := w.calls ++ [Call.HAL_FLASH_Lock] }

/-- Modelled from the spec: the page-program primitive of the vendor library.
A successful call consumes one page of `page` bytes at `src` and can only
clear bits of the page at `address`; a failed call is taken to leave the flash
as it was. -/
def HAL_FLASH_Program (page : Nat) (ty : ProgramType) (address src : Nat)
    (result : HalStatus) (w : World) : World :=
  { w with
    mem := fun a =>
      if result = HalStatus.HAL_OK ∧ address ≤ a ∧ a < address + page then
        Nat.land (w.mem a) (w.mem (src + (a - address)))
      else w.mem a
    calls := w.calls ++ [Call.HAL_FLASH_Program ty address src result] }

/-- Modelled from the spec: the sector-erase primitive of the vendor library.
A successful call sets every byte of the `NbSectors` sectors starting with the
one that contains `SectorAddress` to all ones; a failed call is taken to leave
the flash as it was. -/
def HAL_FLASHEx_Erase (req : FLASH_EraseInitTypeDef) (result : HalStatus)
    (w : World) : World :=
  { w with
    mem := fun a =>
      if result = HalStatus.HAL_OK
          ∧ req.SectorAddress - req.SectorAddress % FLASH_SECTOR_SIZE ≤ a
          ∧ a < req.SectorAddress - req.SectorAddress % FLASH_SECTOR_SIZE
                + req.NbSectors * FLASH_SECTOR_SIZE then
        255
      else w.mem a
    calls := w.calls ++ [Call.HAL_FLASHEx_Erase req result] }

/-- Modelled from the spec: `APP_ErrorHandler` is defined by the application;
the call is logged here and the caller treats it as never returning. -/
def APP_ErrorHandler (w : World) : World :=
  { w with calls := w.calls ++ [Call.APP_ErrorHandler] }

/-! ## `lfs_internal_flash_init` -/

/-- `lfs_internal_flash_init`: binds the four operations and the geometry into
the record and returns `LFS_ERR_OK`; nothing outside the record is touched. -/
def lfs_internal_flash_init (cfg : lfs_config) (w : World) : Int × lfs_config × World :=
  let cfg := { cfg with read := Handler.lfs_internal_flash_read }
  let cfg := { cfg with prog := Handler.lfs_internal_flash_prog }
  let cfg := { cfg with erase := Handler.lfs_internal_flash_erase }
  let cfg := { cfg with sync := Handler.lfs_internal_flash_sync }
  let cfg := { cfg with read_size := 16 }
  let cfg := { cfg with prog_size := 16 }
  let cfg := { cfg with block_size := FLASH_SECTOR_SIZE }
  let cfg := { cfg with block_count := FLASH_SECTOR_NUM }
  let cfg := { cfg with block_cycles := 500 }
  let cfg := { cfg with cache_size := 16 }
  let cfg := { cfg with lookahead_size := 16 }
  (LFS_ERR_OK, cfg, w)

/-! ## `lfs_internal_flash_read` -/

/-- The statement `*(uint16_t*)dst = *(uint16_t*)src`: the two bytes of the
halfword at `src` are stored at `dst`. -/
def copyHalfword (dst src : Nat) (w : World) : World :=
  { w with
    mem := fun a =>
      if a = dst then w.mem src
      else if a = (dst + 1) % U32 then w.mem ((src + 1) % U32)
      else w.mem a
    stores := w.stores ++ [dst, (dst + 1) % U32] }

/-- The loop `for (int i = 0; i < size; i += 2)` of the read path. The
comparison is unsigned; `i` is kept as its 32-bit pattern. -/
def readLoop : Nat → Nat → Nat → Nat → Nat → World → Option World
  | 0, _, _, size, i, w => if i < size then none else some w
  | fuel + 1, address, buffer, size, i, w =>
    if i < size then
      readLoop fuel address buffer size ((i + 2) % U32)
        (copyHalfword ((buffer + i) % U32) ((address + i) % U32) w)
    else some w

/-- `lfs_internal_flash_read`: three assertions, the address computation
`block * cfg->block_size + off` in `uint32_t`, the copy loop, `LFS_ERR_OK`.
`LFS_ASSERT` is the library's assertion: a failed one ends the call on the
spot. A remainder by a zero `read_size` has no defined value and ends the call
as `divByZero`. -/
def lfs_internal_flash_read (fuel : Nat) (cfg : lfs_config)
    (block off buffer size : Nat) (w : World) : Result :=
  if cfg.read_size = 0 then Result.divByZero w
  else if ¬ (off % cfg.read_size = 0) then Result.assertFailed w
  else if ¬ (size % cfg.read_size = 0) then Result.assertFailed w
  else if ¬ (block < cfg.block_count) then Result.assertFailed w
  else
    let address := (block * cfg.block_size + off) % U32
    match readLoop fuel address buffer size 0 w with
    | none => Result.outOfFuel
    | some w1 => Result.returned LFS_ERR_OK w1

/-! ## `lfs_internal_flash_prog` -/

/-- The loop `while (flash_program_start < flash_program_end)` of the program
path. `results n` is the status the primitive reports for the `n`-th call of
this invocation; `page` is the vendor constant `FLASH_PAGE_SIZE`. Only a call
that reports `HAL_OK` advances the destination (by one page) and the source
(by one `uint32_t`). -/
def progLoop (page : Nat) (results : Nat → HalStatus) :
    Nat → Nat → Nat → Nat → Nat → World → Option World
  | 0, _, start, stop, _, w => if start < stop then none else some w
  | fuel + 1, n, start, stop, src, w =>
    if start < stop then
      if results n = HalStatus.HAL_OK then
        progLoop page results fuel (n + 1) ((start + page) % U32) stop ((src + 4) % U32)
          (HAL_FLASH_Program page ProgramType.FLASH_TYPEPROGRAM_PAGE start src (results n) w)
      else
        progLoop page results fuel (n + 1) start stop src
          (HAL_FLASH_Program page ProgramType.FLASH_TYPEPROGRAM_PAGE start src (results n) w)
    else some w

/-- `lfs_internal_flash_prog`: no assertion; start `FLASH_START_ADDR`, end
`FLASH_START_ADDR + size` in `uint32_t`, unlock, the loop, lock,
`LFS_ERR_OK`. `cfg`, `block` and `off` are not used. -/
def lfs_internal_flash_prog (page : Nat) (results : Nat → HalStatus) (fuel : Nat)
    (_cfg : lfs_config) (_block _off buffer size : Nat) (w : World) : Result :=
  let flash_program_start := FLASH_START_ADDR
  let flash_program_end := (FLASH_START_ADDR + size) % U32
  let src := buffer
  match progLoop page results fuel 0 flash_program_start flash_program_end src
      (HAL_FLASH_Unlock w) with
  | none => Result.outOfFuel
  | some w1 => Result.returned LFS_ERR_OK (HAL_FLASH_Lock w1)

/-! ## `lfs_internal_flash_erase` -/

/-- `lfs_internal_flash_erase`: one assertion, a sector-erase request for one
sector at `FLASH_START_ADDR`, unlock, the erase call, the fatal handler when
the result is not `HAL_OK`, lock, `LFS_ERR_OK`. `result` is the status the
erase primitive reports. -/
def lfs_internal_flash_erase (result : HalStatus) (cfg : lfs_config) (block : Nat)
    (w : World) : Result :=
  if ¬ (block < cfg.block_count) then Result.assertFailed w
  else
    let EraseInitStruct : FLASH_EraseInitTypeDef :=
      { TypeErase := EraseType.unset, SectorAddress := 0, NbSectors := 0 }
    let EraseInitStruct :=
      { EraseInitStruct with TypeErase := EraseType.FLASH_TYPEERASE_SECTORERASE }
    let EraseInitStruct := { EraseInitStruct with SectorAddress := FLASH_START_ADDR }
    let EraseInitStruct := { EraseInitStruct with NbSectors := 1 }
    let w1 := HAL_FLASH_Unlock w
    let w2 := HAL_FLASHEx_Erase EraseInitStruct result w1
    if result ≠ HalStatus.HAL_OK then Result.fatal (APP_ErrorHandler w2)
    else Result.returned LFS_ERR_OK (HAL_FLASH_Lock w2)

/-! ## `lfs_internal_flash_sync` -/

/-- `lfs_internal_flash_sync`: returns `LFS_ERR_OK` and does nothing else. -/
def lfs_internal_flash_sync (_cfg : lfs_config) (w : World) : Result :=
  Result.returned LFS_ERR_OK w

/-! ## Fixtures: the configuration of the port and the documented test -/

/-- Modelled from the spec: `FLASH_PAGE_SIZE` is a vendor constant (the
programming granularity, smaller than a sector). The operations above take it
as a parameter; 128 bytes is used where a concrete device is evaluated. -/
def FLASH_PAGE_SIZE : Nat := 128

/-- A configuration record before initialisation: every field zero. -/
def zeroConfig : lfs_config :=
  { context := 0, read := Handler.null, prog := Handler.null, erase := Handler.null,
    sync := Handler.null, read_size := 0, prog_size := 0, block_size := 0,
    block_count := 0, block_cycles := 0, cache_size := 0, lookahead_size := 0,
    read_buffer := 0, prog_buffer := 0, lookahead_buffer := 0, name_max := 0,
    file_max := 0, attr_max := 0 }

/-- The bytes of `"Hello LittleFS!"` with the trailing null (16 bytes), the
`write_buffer` of the test documented in `Lfs_Port.h`. -/
def helloPattern : List Nat :=
  [72, 101, 108, 108, 111, 32, 76, 105, 116, 116, 108, 101, 70, 83, 33, 0]

/-- Address of `write_buffer` in the test world. -/
def writeBuffer : Nat := 0x20000000

/-- Address of `read_buffer` in the test world. -/
def readBuffer : Nat := 0x20000100

/-- A device before the test runs: `write_buffer` holds the pattern, every
other byte of the address space is zero, and nothing has been called yet. -/
def bootWorld : World :=
  { mem := fun a =>
      if writeBuffer ≤ a ∧ a < writeBuffer + 16 then helloPattern.getD (a - writeBuffer) 0
      else 0
    calls := []
    stores := [] }

/-- A device whose flash region holds the byte `0x5A` everywhere and whose
other bytes are zero. -/
def imageWorld : World :=
  { mem := fun a =>
      if FLASH_START_ADDR ≤ a ∧ a < FLASH_START_ADDR + FLASH_SECTOR_NUM * FLASH_SECTOR_SIZE
      then 0x5A else 0
    calls := []
    stores := [] }

/-- The configuration `lfs_internal_flash_init` produces from a zero record. -/
def portConfig : lfs_config := (lfs_internal_flash_init zeroConfig bootWorld).2.1

/-- A configuration that differs from the port's only in `read_size = 1`. -/
def oneByteConfig : lfs_config := { portConfig with read_size := 1 }

/-- The `size` bytes found at `address` in a world. -/
def bytesAt (w : World) (address size : Nat) : List Nat :=
  (List.range size).map (fun i => w.mem (address + i))

/-- The round trip of the specification on the test world: erase `block`,
program `size` bytes from `src` at offset 0 of `block`, read `size` bytes of
offset 0 of `block` into `dst`; every hardware operation succeeds. -/
def roundTrip (cfg : lfs_config) (block src dst size : Nat) (w : World) : Result :=
  match lfs_internal_flash_erase HalStatus.HAL_OK cfg block w with
  | Result.returned _ w1 =>
    match lfs_internal_flash_prog FLASH_PAGE_SIZE (fun _ => HalStatus.HAL_OK) size
        cfg block 0 src size w1 with
    | Result.returned _ w2 => lfs_internal_flash_read size cfg block 0 dst size w2
    | r => r
  | r => r

/-- Number of `HAL_OK` among the first `n` results of the program primitive. -/
def okCount (results : Nat → HalStatus) : Nat → Nat
  | 0 => 0
  | n + 1 => okCount results n + (if results n = HalStatus.HAL_OK then 1 else 0)

/-- A program primitive that fails on its first call and succeeds afterwards. -/
def failOnce : Nat → HalStatus :=
  fun n => if n = 0 then HalStatus.HAL_ERROR else HalStatus.HAL_OK

/-! ## Theorems -/

/-- C7: for every configuration record, `lfs_internal_flash_init` returns
`LFS_ERR_OK`, binds the four operations, sets the four sizes to 16, the block
size to `FLASH_SECTOR_SIZE` (4096), the block count to `FLASH_SECTOR_NUM` (15)
and the block cycles to 500, and leaves every other field and the world outside
the record as they were. -/
theorem init_binds_operations_and_geometry (cfg : lfs_config) (w : World) :
    lfs_internal_flash_init cfg w =
      (LFS_ERR_OK,
       { context := cfg.context
         read := Handler.lfs_internal_flash_read
         prog := Handler.lfs_internal_flash_prog
         erase := Handler.lfs_internal_flash_erase
         sync := Handler.lfs_internal_flash_sync
         read_size := 16
         prog_size := 16
         block_size := 4096
         block_count := 15
         block_cycles := 500
         cache_size := 16
         lookahead_size := 16
         read_buffer := cfg.read_buffer
         prog_buffer := cfg.prog_buffer
         lookahead_buffer := cfg.lookahead_buffer
         name_max := cfg.name_max
         file_max := cfg.file_max
         attr_max := cfg.attr_max },
       w)
    ∧ FLASH_SECTOR_SIZE = 4096 ∧ FLASH_SECTOR_NUM = 15 := by
  refine ⟨rfl, rfl, rfl⟩

/-- C8: for every configuration and every world, `lfs_internal_flash_sync`
returns `LFS_ERR_OK` with the world (flash bytes, controller calls, stores)
exactly as it was; the configuration is a read-only argument. -/
theorem sync_is_a_no_op (cfg : lfs_config) (w : World) :
    lfs_internal_flash_sync cfg w = Result.returned LFS_ERR_OK w := rfl

/-- C5: for a block in range, a result other than `HAL_OK` from the erase
primitive makes `lfs_internal_flash_erase` call the fatal handler once, right
after the erase call, and end without a status (no lock, no return); with
`HAL_OK` the handler is not called and `LFS_ERR_OK` is returned. -/
theorem erase_failure_enters_fatal_handler (result : HalStatus) (cfg : lfs_config)
    (block : Nat) (w : World) (hblock : block < cfg.block_count) :
    (result ≠ HalStatus.HAL_OK →
      ∃ w1, lfs_internal_flash_erase result cfg block w = Result.fatal w1
        ∧ w1.calls = w.calls ++
            [Call.HAL_FLASH_Unlock,
             Call.HAL_FLASHEx_Erase
               { TypeErase := EraseType.FLASH_TYPEERASE_SECTORERASE,
                 SectorAddress := FLASH_START_ADDR, NbSectors := 1 } result,
             Call.APP_ErrorHandler])
    ∧ (result = HalStatus.HAL_OK →
      ∃ w1, lfs_internal_flash_erase result cfg block w = Result.returned LFS_ERR_OK w1
        ∧ w1.calls = w.calls ++
            [Call.HAL_FLASH_Unlock,
             Call.HAL_FLASHEx_Erase
               { TypeErase := EraseType.FLASH_TYPEERASE_SECTORERASE,
                 SectorAddress := FLASH_START_ADDR, NbSectors := 1 } result,
             Call.HAL_FLASH_Lock]
        ∧ Call.APP_ErrorHandler ∉ List.drop w.calls.length w1.calls) := by
  constructor
  · intro hres
    have h : lfs_internal_flash_erase result cfg block w =
        Result.fatal (APP_ErrorHandler (HAL_FLASHEx_Erase
          { TypeErase := EraseType.FLASH_TYPEERASE_SECTORERASE,
            SectorAddress := FLASH_START_ADDR, NbSectors := 1 } result
          (HAL_FLASH_Unlock w))) := by
      simp [lfs_internal_flash_erase, hblock, hres]
    exact ⟨_, h, by simp [APP_ErrorHandler, HAL_FLASHEx_Erase, HAL_FLASH_Unlock]⟩
  · intro hres
    have h : lfs_internal_flash_erase result cfg block w =
        Result.returned LFS_ERR_OK (HAL_FLASH_Lock (HAL_FLASHEx_Erase
          { TypeErase := EraseType.FLASH_TYPEERASE_SECTORERASE,
            SectorAddress := FLASH_START_ADDR, NbSectors := 1 } result
          (HAL_FLASH_Unlock w))) := by
      simp [lfs_internal_flash_erase, hblock, hres]
    exact ⟨_, h, by simp [HAL_FLASH_Lock, HAL_FLASHEx_Erase, HAL_FLASH_Unlock],
      by simp [HAL_FLASH_Lock, HAL_FLASHEx_Erase, HAL_FLASH_Unlock]⟩

/-- Witness of C5 at the port's configuration, block 3, a timed-out erase. -/
theorem erase_failure_enters_fatal_handler_witness :
    (3 < portConfig.block_count) ∧
    ((HalStatus.HAL_TIMEOUT ≠ HalStatus.HAL_OK →
      ∃ w1, lfs_internal_flash_erase HalStatus.HAL_TIMEOUT portConfig 3 bootWorld
          = Result.fatal w1
        ∧ w1.calls = bootWorld.calls ++
            [Call.HAL_FLASH_Unlock,
             Call.HAL_FLASHEx_Erase
               { TypeErase := EraseType.FLASH_TYPEERASE_SECTORERASE,
                 SectorAddress := FLASH_START_ADDR, NbSectors := 1 } HalStatus.HAL_TIMEOUT,
             Call.APP_ErrorHandler])
    ∧ (HalStatus.HAL_TIMEOUT = HalStatus.HAL_OK →
      ∃ w1, lfs_internal_flash_erase HalStatus.HAL_TIMEOUT portConfig 3 bootWorld
          = Result.returned LFS_ERR_OK w1
        ∧ w1.calls = bootWorld.calls ++
            [Call.HAL_FLASH_Unlock,
             Call.HAL_FLASHEx_Erase
               { TypeErase := EraseType.FLASH_TYPEERASE_SECTORERASE,
                 SectorAddress := FLASH_START_ADDR, NbSectors := 1 } HalStatus.HAL_TIMEOUT,
             Call.HAL_FLASH_Lock]
        ∧ Call.APP_ErrorHandler ∉ List.drop bootWorld.calls.length w1.calls)) :=
  ⟨by decide, erase_failure_enters_fatal_handler HalStatus.HAL_TIMEOUT portConfig 3 bootWorld
    (by decide)⟩

/-- C4: evaluation at block 1 of the port's configuration with a successful
erase. The call sequence is unlock, one sector erase with `NbSectors = 1`,
lock, and `LFS_ERR_OK` is returned, but the request names the sector at
`FLASH_START_ADDR`, not the one at `FLASH_START_ADDR + 1 * block_size`: block
0 is erased and block 1 keeps its bytes. -/
theorem erase_of_block_one_erases_block_zero :
    1 < portConfig.block_count
    ∧ ∃ w1, lfs_internal_flash_erase HalStatus.HAL_OK portConfig 1 imageWorld
          = Result.returned LFS_ERR_OK w1
        ∧ w1.calls =
            [Call.HAL_FLASH_Unlock,
             Call.HAL_FLASHEx_Erase
               { TypeErase := EraseType.FLASH_TYPEERASE_SECTORERASE,
                 SectorAddress := FLASH_START_ADDR, NbSectors := 1 } HalStatus.HAL_OK,
             Call.HAL_FLASH_Lock]
        ∧ FLASH_START_ADDR ≠ FLASH_START_ADDR + 1 * portConfig.block_size
        ∧ bytesAt imageWorld (FLASH_START_ADDR + 1 * portConfig.block_size) 4
            = [0x5A, 0x5A, 0x5A, 0x5A]
        ∧ bytesAt w1 (FLASH_START_ADDR + 1 * portConfig.block_size) 4
            = [0x5A, 0x5A, 0x5A, 0x5A]
        ∧ bytesAt imageWorld FLASH_START_ADDR 4 = [0x5A, 0x5A, 0x5A, 0x5A]
        ∧ bytesAt w1 FLASH_START_ADDR 4 = [0xFF, 0xFF, 0xFF, 0xFF] :=
  ⟨by decide, _, rfl, by decide, by decide, by decide, by decide, by decide, by decide⟩

/-- The erase path stops at its assertion for a block out of range: no
controller call is made and the world is untouched. -/
theorem erase_rejects_block_out_of_range (result : HalStatus) (cfg : lfs_config)
    (block : Nat) (w : World) (hblock : cfg.block_count ≤ block) :
    lfs_internal_flash_erase result cfg block w = Result.assertFailed w := by
  have h : ¬ block < cfg.block_count := by omega
  simp [lfs_internal_flash_erase, h]

/-- The read path never gets past its assertions for a block out of range: no
byte is copied and the world is untouched. -/
theorem read_rejects_block_out_of_range (fuel : Nat) (cfg : lfs_config)
    (block off buffer size : Nat) (w : World) (hblock : cfg.block_count ≤ block) :
    lfs_internal_flash_read fuel cfg block off buffer size w = Result.assertFailed w
    ∨ lfs_internal_flash_read fuel cfg block off buffer size w = Result.divByZero w := by
  have h : ¬ block < cfg.block_count := by omega
  unfold lfs_internal_flash_read
  split_ifs <;> simp

/-- C3: evaluation of `lfs_internal_flash_prog` at block 15 of the port's
configuration, the first block out of range. There is no assertion on the
program path: the call unlocks, submits a page to the program primitive, locks
and returns `LFS_ERR_OK`. -/
theorem prog_accepts_block_out_of_range :
    ¬ (15 < portConfig.block_count)
    ∧ ∃ w1, lfs_internal_flash_prog FLASH_PAGE_SIZE (fun _ => HalStatus.HAL_OK) 1
            portConfig 15 0 writeBuffer 16 bootWorld
          = Result.returned LFS_ERR_OK w1
        ∧ w1.calls =
            [Call.HAL_FLASH_Unlock,
             Call.HAL_FLASH_Program ProgramType.FLASH_TYPEPROGRAM_PAGE FLASH_START_ADDR
               writeBuffer HalStatus.HAL_OK,
             Call.HAL_FLASH_Lock] :=
  ⟨by decide, _, rfl, by decide⟩

/-! ### The program loop -/

/-- The number of pages needed for `size` bytes covers `size`. -/
theorem size_le_pages (page size : Nat) (hpage : 0 < page) :
    size ≤ page * ((size + page - 1) / page) := by
  have h1 := Nat.div_add_mod (size + page - 1) page
  have h2 := Nat.mod_lt (size + page - 1) hpage
  omega

/-- The pages needed for `size` bytes overshoot `size` by less than a page. -/
theorem pages_lt_size_add (page size : Nat) :
    page * ((size + page - 1) / page) ≤ size + page - 1 :=
  Nat.mul_div_le (size + page - 1) page

/-- With fewer successes than pages needed, the destination is below the end. -/
theorem pages_below_size (page size c : Nat) (hpage : 0 < page)
    (hc : c < (size + page - 1) / page) : page * c < size := by
  have h1 := pages_lt_size_add page size
  have h2 : page * (c + 1) ≤ page * ((size + page - 1) / page) :=
    Nat.mul_le_mul_left page hc
  rw [Nat.mul_add, Nat.mul_one] at h2
  omega

/-- A primitive that never fails has `n` successes among its first `n` calls. -/
theorem okCount_all_ok (n : Nat) : okCount (fun _ => HalStatus.HAL_OK) n = n := by
  induction n with
  | zero => rfl
  | succ n ih => simp [okCount, ih]

/-- The program loop does not terminate while the primitive keeps failing:
whatever the fuel, it is used up. -/
theorem progLoop_all_fail (page start stop src : Nat) (hlt : start < stop) :
    ∀ fuel n w, progLoop page (fun _ => HalStatus.HAL_ERROR) fuel n start stop src w = none := by
  intro fuel
  induction fuel with
  | zero => intro n w; simp [progLoop, hlt]
  | succ fuel ih => intro n w; simp [progLoop, hlt, ih]

/-- The program loop from its `n`-th call on, when the `m`-th call is the one
that completes the last page: every call targets the page numbered by the
successes so far, and the loop ends after the `m`-th call. -/
theorem progLoop_calls (page : Nat) (results : Nat → HalStatus) (buffer size m : Nat)
    (hpage : 0 < page) (hwrap : FLASH_START_ADDR + size + page ≤ U32)
    (hm : okCount results m = (size + page - 1) / page)
    (hmin : ∀ j, j < m → okCount results j < (size + page - 1) / page) :
    ∀ d n fuel w, n + d = m → d ≤ fuel →
      ∃ w1, progLoop page results fuel n (FLASH_START_ADDR + page * okCount results n)
              (FLASH_START_ADDR + size) ((buffer + 4 * okCount results n) % U32) w = some w1
        ∧ w1.stores = w.stores
        ∧ w1.calls = w.calls ++ (List.range d).map (fun i =>
            Call.HAL_FLASH_Program ProgramType.FLASH_TYPEPROGRAM_PAGE
              (FLASH_START_ADDR + page * okCount results (n + i))
              ((buffer + 4 * okCount results (n + i)) % U32) (results (n + i))) := by
  intro d
  induction d with
  | zero =>
    intro n fuel w hn _
    have hnm : n = m := by omega
    subst hnm
    have hge : ¬ (FLASH_START_ADDR + page * okCount results n < FLASH_START_ADDR + size) := by
      have := size_le_pages page size hpage
      rw [hm]; omega
    refine ⟨w, ?_, rfl, by simp⟩
    cases fuel <;> simp [progLoop, hge]
  | succ d ih =>
    intro n fuel w hn hfuel
    obtain ⟨fuel, rfl⟩ : ∃ f, fuel = f + 1 := ⟨fuel - 1, by omega⟩
    have hc := hmin n (by omega)
    have hlt : FLASH_START_ADDR + page * okCount results n < FLASH_START_ADDR + size := by
      have := pages_below_size page size _ hpage hc
      omega
    have hrange : List.range (d + 1) = 0 :: (List.range d).map Nat.succ :=
      List.range_succ_eq_map d
    by_cases hres : results n = HalStatus.HAL_OK
    · have hcount : okCount results (n + 1) = okCount results n + 1 := by
        simp [okCount, hres]
      have hstart : (FLASH_START_ADDR + page * okCount results n + page) % U32
          = FLASH_START_ADDR + page * okCount results (n + 1) := by
        rw [hcount, Nat.mul_add, Nat.mul_one, ← Nat.add_assoc]
        apply Nat.mod_eq_of_lt
        have h1 := pages_lt_size_add page size
        have h2 : page * (okCount results n + 1) ≤ page * ((size + page - 1) / page) :=
          Nat.mul_le_mul_left page hc
        rw [Nat.mul_add, Nat.mul_one] at h2
        omega
      have hsrc : ((buffer + 4 * okCount results n) % U32 + 4) % U32
          = (buffer + 4 * okCount results (n + 1)) % U32 := by
        rw [hcount, Nat.mod_add_mod]
        congr 1
      obtain ⟨w1, h1, h2, h3⟩ := ih (n + 1) fuel
        (HAL_FLASH_Program page ProgramType.FLASH_TYPEPROGRAM_PAGE
          (FLASH_START_ADDR + page * okCount results n)
          ((buffer + 4 * okCount results n) % U32) (results n) w) (by omega) (by omega)
      refine ⟨w1, ?_, ?_, ?_⟩
      · rw [progLoop, if_pos hlt, if_pos hres, hstart, hsrc]
        exact h1
      · rw [h2]; rfl
      · rw [h3, hrange]
        simp only [HAL_FLASH_Program, List.map_cons, List.map_map, List.append_assoc,
          List.singleton_append, Nat.add_zero]
        congr 2
        apply List.map_congr_left
        intro i _
        simp only [Function.comp, Nat.succ_eq_add_one]
        rw [show n + 1 + i = n + (i + 1) by omega]
    · have hcount : okCount results (n + 1) = okCount results n := by
        simp [okCount, hres]
      obtain ⟨w1, h1, h2, h3⟩ := ih (n + 1) fuel
        (HAL_FLASH_Program page ProgramType.FLASH_TYPEPROGRAM_PAGE
          (FLASH_START_ADDR + page * okCount results n)
          ((buffer + 4 * okCount results n) % U32) (results n) w) (by omega) (by omega)
      rw [hcount] at h1
      refine ⟨w1, ?_, ?_, ?_⟩
      · rw [progLoop, if_pos hlt, if_neg hres]
        exact h1
      · rw [h2]; rfl
      · rw [h3, hrange]
        simp only [HAL_FLASH_Program, List.map_cons, List.map_map, List.append_assoc,
          List.singleton_append, Nat.add_zero]
        congr 2
        apply List.map_congr_left
        intro i _
        simp only [Function.comp, Nat.succ_eq_add_one]
        rw [show n + 1 + i = n + (i + 1) by omega]

/-- The program path once the loop is known to end after its `m`-th call. -/
theorem prog_calls (page : Nat) (results : Nat → HalStatus) (fuel : Nat) (cfg : lfs_config)
    (block off buffer size : Nat) (w : World) (m : Nat)
    (hpage : 0 < page) (hbuf : buffer < U32) (hwrap : FLASH_START_ADDR + size + page ≤ U32)
    (hm : okCount results m = (size + page - 1) / page)
    (hmin : ∀ j, j < m → okCount results j < (size + page - 1) / page)
    (hfuel : m ≤ fuel) :
    ∃ w1, lfs_internal_flash_prog page results fuel cfg block off buffer size w
          = Result.returned LFS_ERR_OK w1
      ∧ w1.calls = w.calls ++ [Call.HAL_FLASH_Unlock]
          ++ (List.range m).map (fun i =>
              Call.HAL_FLASH_Program ProgramType.FLASH_TYPEPROGRAM_PAGE
                (FLASH_START_ADDR + page * okCount results i)
                ((buffer + 4 * okCount results i) % U32) (results i))
          ++ [Call.HAL_FLASH_Lock] := by
  obtain ⟨w1, h1, _, h3⟩ := progLoop_calls page results buffer size m hpage hwrap hm hmin
    m 0 fuel (HAL_FLASH_Unlock w) (by omega) hfuel
  have hstop : (FLASH_START_ADDR + size) % U32 = FLASH_START_ADDR + size :=
    Nat.mod_eq_of_lt (by omega)
  have hsrc : (buffer + 4 * okCount results 0) % U32 = buffer := by
    simp [okCount, Nat.mod_eq_of_lt hbuf]
  have hstart : FLASH_START_ADDR + page * okCount results 0 = FLASH_START_ADDR := by
    simp [okCount]
  refine ⟨HAL_FLASH_Lock w1, ?_, ?_⟩
  · rw [hstart, hsrc] at h1
    simp only [lfs_internal_flash_prog, hstop, h1]
  · simp only [HAL_FLASH_Lock, h3, HAL_FLASH_Unlock, Nat.zero_add]

/-- C6 (amended): the program path resubmits a page until the primitive
reports `HAL_OK`. For every buffer, every size whose end address stays inside
32 bits and every result sequence in which the `m`-th call is the one that
completes the last page, the call terminates (fuel `m` is enough) after
exactly `m` program calls, the `i`-th of them aimed at the page numbered by
the successes before it, releases the lock last and returns `LFS_ERR_OK`,
whatever failures were reported on the way. -/
theorem prog_resubmits_until_ok (page : Nat) (results : Nat → HalStatus) (fuel : Nat)
    (cfg : lfs_config) (block off buffer size : Nat) (w : World) (m : Nat)
    (hpage : 0 < page) (hbuf : buffer < U32) (hwrap : FLASH_START_ADDR + size + page ≤ U32)
    (hm : okCount results m = (size + page - 1) / page)
    (hmin : ∀ j, j < m → okCount results j < (size + page - 1) / page)
    (hfuel : m ≤ fuel) :
    ∃ w1, lfs_internal_flash_prog page results fuel cfg block off buffer size w
          = Result.returned LFS_ERR_OK w1
      ∧ w1.calls = w.calls ++ [Call.HAL_FLASH_Unlock]
          ++ (List.range m).map (fun i =>
              Call.HAL_FLASH_Program ProgramType.FLASH_TYPEPROGRAM_PAGE
                (FLASH_START_ADDR + page * okCount results i)
                ((buffer + 4 * okCount results i) % U32) (results i))
          ++ [Call.HAL_FLASH_Lock] :=
  prog_calls page results fuel cfg block off buffer size w m hpage hbuf hwrap hm hmin hfuel

/-- Witness of C6 (amended): 16 bytes, a primitive that fails once; two calls
are made, both aimed at the first page. -/
theorem prog_resubmits_until_ok_witness :
    ∃ w1, lfs_internal_flash_prog FLASH_PAGE_SIZE failOnce 2 portConfig 0 0 writeBuffer 16
            bootWorld
          = Result.returned LFS_ERR_OK w1
      ∧ w1.calls = bootWorld.calls ++ [Call.HAL_FLASH_Unlock]
          ++ (List.range 2).map (fun i =>
              Call.HAL_FLASH_Program ProgramType.FLASH_TYPEPROGRAM_PAGE
                (FLASH_START_ADDR + FLASH_PAGE_SIZE * okCount failOnce i)
                ((writeBuffer + 4 * okCount failOnce i) % U32) (failOnce i))
          ++ [Call.HAL_FLASH_Lock] :=
  prog_resubmits_until_ok FLASH_PAGE_SIZE failOnce 2 portConfig 0 0 writeBuffer 16 bootWorld 2
    (by decide) (by decide) (by decide) (by decide) (by decide) (by decide)

/-- C6 (as stated) fails. With a primitive that fails on its first call, the
16-byte page at `FLASH_START_ADDR` is submitted twice; with a primitive that
always fails, the call never returns: whatever the fuel, the loop is still
running, so the lock is never released and no status is returned. -/
theorem prog_failed_page_is_resubmitted :
    (∃ w1, lfs_internal_flash_prog FLASH_PAGE_SIZE failOnce 2 portConfig 0 0 writeBuffer 16
            bootWorld
          = Result.returned LFS_ERR_OK w1
      ∧ w1.calls =
          [Call.HAL_FLASH_Unlock,
           Call.HAL_FLASH_Program ProgramType.FLASH_TYPEPROGRAM_PAGE FLASH_START_ADDR
             writeBuffer HalStatus.HAL_ERROR,
           Call.HAL_FLASH_Program ProgramType.FLASH_TYPEPROGRAM_PAGE FLASH_START_ADDR
             writeBuffer HalStatus.HAL_OK,
           Call.HAL_FLASH_Lock])
    ∧ ∀ fuel, ¬ ∃ w1, lfs_internal_flash_prog FLASH_PAGE_SIZE (fun _ => HalStatus.HAL_ERROR) fuel
          portConfig 0 0 writeBuffer 16 bootWorld = Result.returned LFS_ERR_OK w1 := by
  refine ⟨⟨_, rfl, by decide⟩, ?_⟩
  intro fuel ⟨w1, h⟩
  have hloop := progLoop_all_fail FLASH_PAGE_SIZE FLASH_START_ADDR
    ((FLASH_START_ADDR + 16) % U32) writeBuffer (by decide) fuel 0 (HAL_FLASH_Unlock bootWorld)
  simp [lfs_internal_flash_prog, hloop] at h

/-- C9: the reference program trace. When every page-program call succeeds, a
call with `size <= block_size` makes, between one unlock and one lock, exactly
`ceil(size / page)` program calls, the `k`-th with destination
`FLASH_START_ADDR + k * page` and source pointer `buffer + 4 * k` (a 32-bit
pointer), and returns `LFS_ERR_OK`; the outcome is the same for every
configuration, block and offset. `page` is `FLASH_PAGE_SIZE`; the block size
is one for which `FLASH_START_ADDR + block_size + page` fits in 32 bits, as
the 4096 of the port does. -/
theorem prog_reference_trace (page fuel : Nat) (cfg : lfs_config)
    (block off buffer size : Nat) (w : World)
    (hpage : 0 < page) (hbuf : buffer < U32) (hsize : size ≤ cfg.block_size)
    (hwrap : FLASH_START_ADDR + cfg.block_size + page ≤ U32)
    (hfuel : (size + page - 1) / page ≤ fuel) :
    (∃ w1, lfs_internal_flash_prog page (fun _ => HalStatus.HAL_OK) fuel cfg block off
            buffer size w
          = Result.returned LFS_ERR_OK w1
      ∧ w1.calls = w.calls ++ [Call.HAL_FLASH_Unlock]
          ++ (List.range ((size + page - 1) / page)).map (fun k =>
              Call.HAL_FLASH_Program ProgramType.FLASH_TYPEPROGRAM_PAGE
                (FLASH_START_ADDR + k * page) ((buffer + 4 * k) % U32) HalStatus.HAL_OK)
          ++ [Call.HAL_FLASH_Lock])
    ∧ ∀ (cfg2 : lfs_config) (block2 off2 : Nat),
        lfs_internal_flash_prog page (fun _ => HalStatus.HAL_OK) fuel cfg2 block2 off2
            buffer size w
          = lfs_internal_flash_prog page (fun _ => HalStatus.HAL_OK) fuel cfg block off
            buffer size w := by
  refine ⟨?_, fun _ _ _ => rfl⟩
  obtain ⟨w1, h1, h2⟩ := prog_calls page (fun _ => HalStatus.HAL_OK) fuel cfg block off buffer
    size w ((size + page - 1) / page) hpage hbuf (by omega) (okCount_all_ok _)
    (fun j hj => by rw [okCount_all_ok]; exact hj) hfuel
  refine ⟨w1, h1, ?_⟩
  rw [h2]
  congr 2
  apply List.map_congr_left
  intro k _
  rw [okCount_all_ok, Nat.mul_comm]

/-- Witness of C9: 256 bytes at block 3, offset 32 of the port's configuration
with 128-byte pages: two program calls. -/
theorem prog_reference_trace_witness :
    (∃ w1, lfs_internal_flash_prog FLASH_PAGE_SIZE (fun _ => HalStatus.HAL_OK) 2 portConfig 3 32
            writeBuffer 256 bootWorld
          = Result.returned LFS_ERR_OK w1
      ∧ w1.calls = bootWorld.calls ++ [Call.HAL_FLASH_Unlock]
          ++ (List.range ((256 + FLASH_PAGE_SIZE - 1) / FLASH_PAGE_SIZE)).map (fun k =>
              Call.HAL_FLASH_Program ProgramType.FLASH_TYPEPROGRAM_PAGE
                (FLASH_START_ADDR + k * FLASH_PAGE_SIZE) ((writeBuffer + 4 * k) % U32)
                HalStatus.HAL_OK)
          ++ [Call.HAL_FLASH_Lock])
    ∧ ∀ (cfg2 : lfs_config) (block2 off2 : Nat),
        lfs_internal_flash_prog FLASH_PAGE_SIZE (fun _ => HalStatus.HAL_OK) 2 cfg2 block2 off2
            writeBuffer 256 bootWorld
          = lfs_internal_flash_prog FLASH_PAGE_SIZE (fun _ => HalStatus.HAL_OK) 2 portConfig 3 32
            writeBuffer 256 bootWorld :=
  prog_reference_trace FLASH_PAGE_SIZE 2 portConfig 3 32 writeBuffer 256 bootWorld
    (by decide) (by decide) (by decide) (by decide) (by decide)

/-! ### The read loop -/

/-- The read loop on an even size below 2^32, entered at an even index: it
ends within `(size - i) / 2` iterations, makes no controller call, and every
store it makes goes to a buffer byte with index below `size`. -/
theorem readLoop_stores (address buffer size : Nat) (h32 : size < U32)
    (heven : size % 2 = 0) :
    ∀ fuel i w, i % 2 = 0 → i ≤ size → size ≤ i + 2 * fuel →
      ∃ w1 new, readLoop fuel address buffer size i w = some w1
        ∧ w1.calls = w.calls
        ∧ w1.stores = w.stores ++ new
        ∧ ∀ a, a ∈ new → ∃ j, j < size ∧ a = (buffer + j) % U32 := by
  intro fuel
  induction fuel with
  | zero =>
    intro i w _ hle hfuel
    have hge : ¬ i < size := by omega
    exact ⟨w, [], by simp [readLoop, hge], rfl, by simp, by simp⟩
  | succ fuel ih =>
    intro i w hi hle hfuel
    by_cases hlt : i < size
    · have hnext : (i + 2) % U32 = i + 2 := Nat.mod_eq_of_lt (by omega)
      obtain ⟨w1, new, h1, h2, h3, h4⟩ := ih (i + 2)
        (copyHalfword ((buffer + i) % U32) ((address + i) % U32) w) (by omega) (by omega)
        (by omega)
      refine ⟨w1, [(buffer + i) % U32, ((buffer + i) % U32 + 1) % U32] ++ new, ?_, ?_, ?_, ?_⟩
      · rw [readLoop, if_pos hlt, hnext]
        exact h1
      · rw [h2]; rfl
      · rw [h3]
        simp [copyHalfword]
      · intro a ha
        simp only [List.cons_append, List.nil_append, List.mem_cons] at ha
        rcases ha with ha | ha | ha
        · exact ⟨i, hlt, ha⟩
        · refine ⟨i + 1, by omega, ?_⟩
          rw [ha, Nat.mod_add_mod, Nat.add_assoc]
        · exact h4 a ha
    · exact ⟨w, [], by simp [readLoop, hlt], rfl, by simp, by simp⟩

/-- C10 (amended): for every configuration with `read_size > 0` and every
`(block, off, size)` with `size` even (a 32-bit value) that passes the three
assertions, `lfs_internal_flash_read` returns `LFS_ERR_OK` (fuel `size / 2` is
enough) and every store of its loop goes to a buffer byte at an index in
`[0, size)`; it makes no controller call. -/
theorem read_stores_stay_below_size (fuel : Nat) (cfg : lfs_config)
    (block off buffer size : Nat) (w : World)
    (hrs : 0 < cfg.read_size) (hoff : off % cfg.read_size = 0)
    (hsize : size % cfg.read_size = 0) (hblock : block < cfg.block_count)
    (h32 : size < U32) (heven : size % 2 = 0) (hfuel : size ≤ 2 * fuel) :
    ∃ w1 new, lfs_internal_flash_read fuel cfg block off buffer size w
          = Result.returned LFS_ERR_OK w1
      ∧ w1.calls = w.calls
      ∧ w1.stores = w.stores ++ new
      ∧ ∀ a, a ∈ new → ∃ j, j < size ∧ a = (buffer + j) % U32 := by
  obtain ⟨w1, new, h1, h2, h3, h4⟩ := readLoop_stores ((block * cfg.block_size + off) % U32)
    buffer size h32 heven fuel 0 w (by decide) (by omega) (by omega)
  refine ⟨w1, new, ?_, h2, h3, h4⟩
  have hrs0 : ¬ cfg.read_size = 0 := by omega
  simp only [lfs_internal_flash_read, hrs0, if_false, hoff, hsize, hblock, not_true_eq_false,
    h1]

/-- Witness of C10 (amended): the port's configuration, block 2, offset 32,
16 bytes. -/
theorem read_stores_stay_below_size_witness :
    ∃ w1 new, lfs_internal_flash_read 8 portConfig 2 32 readBuffer 16 imageWorld
          = Result.returned LFS_ERR_OK w1
      ∧ w1.calls = imageWorld.calls
      ∧ w1.stores = imageWorld.stores ++ new
      ∧ ∀ a, a ∈ new → ∃ j, j < 16 ∧ a = (readBuffer + j) % U32 :=
  read_stores_stay_below_size 8 portConfig 2 32 readBuffer 16 imageWorld
    (by decide) (by decide) (by decide) (by decide) (by decide) (by decide) (by decide)

/-- C10 (as stated) fails for an odd size. With `read_size = 1` the call
`(block 0, off 0, size 1)` passes the three assertions, and the single
halfword copy stores to buffer indices 0 and 1: the byte at index 1, which
held 101, is overwritten with 0. -/
theorem read_odd_size_stores_past_size :
    0 < oneByteConfig.read_size ∧ 0 % oneByteConfig.read_size = 0
    ∧ 1 % oneByteConfig.read_size = 0 ∧ 0 < oneByteConfig.block_count
    ∧ ∃ w1, lfs_internal_flash_read 1 oneByteConfig 0 0 writeBuffer 1 bootWorld
          = Result.returned LFS_ERR_OK w1
        ∧ w1.stores = [writeBuffer + 0, writeBuffer + 1]
        ∧ bootWorld.mem (writeBuffer + 1) = 101
        ∧ w1.mem (writeBuffer + 1) = 0 :=
  ⟨by decide, by decide, by decide, by decide, _, rfl, by decide, by decide, by decide⟩

/-- The read loop as a copy. On an even size, with source range and buffer
range inside the address space and apart from each other, the loop ends and
leaves in buffer byte `j` the byte found at `address + j`, for every `j` from
the entry index on; bytes outside the part of the buffer still to be filled
keep their value. -/
theorem readLoop_copies (address buffer size : Nat)
    (hsrc : address + size ≤ U32) (hdst : buffer + size ≤ U32)
    (hapart : buffer + size ≤ address ∨ address + size ≤ buffer)
    (heven : size % 2 = 0) :
    ∀ fuel i w, i % 2 = 0 → i ≤ size → size ≤ i + 2 * fuel →
      ∃ w1, readLoop fuel address buffer size i w = some w1
        ∧ (∀ a, a < buffer + i ∨ buffer + size ≤ a → w1.mem a = w.mem a)
        ∧ ∀ j, i ≤ j → j < size → w1.mem (buffer + j) = w.mem (address + j) := by
  intro fuel
  induction fuel with
  | zero =>
    intro i w _ hle hfuel
    have hge : ¬ i < size := by omega
    exact ⟨w, by simp [readLoop, hge], fun _ _ => rfl, fun j h1 h2 => by omega⟩
  | succ fuel ih =>
    intro i w hi hle hfuel
    by_cases hlt : i < size
    · have hnext : (i + 2) % U32 = i + 2 := Nat.mod_eq_of_lt (by omega)
      have hb : (buffer + i) % U32 = buffer + i := Nat.mod_eq_of_lt (by omega)
      have hb1 : (buffer + i + 1) % U32 = buffer + i + 1 := Nat.mod_eq_of_lt (by omega)
      have ha : (address + i) % U32 = address + i := Nat.mod_eq_of_lt (by omega)
      have ha1 : (address + i + 1) % U32 = address + i + 1 := Nat.mod_eq_of_lt (by omega)
      obtain ⟨w1, h1, h2, h3⟩ := ih (i + 2)
        (copyHalfword (buffer + i) (address + i) w) (by omega) (by omega) (by omega)
      have hstep : ∀ a, (copyHalfword (buffer + i) (address + i) w).mem a =
          if a = buffer + i then w.mem (address + i)
          else if a = buffer + i + 1 then w.mem (address + i + 1)
          else w.mem a := by
        intro a
        simp only [copyHalfword, hb1, ha1]
      refine ⟨w1, ?_, ?_, ?_⟩
      · rw [readLoop, if_pos hlt, hnext, hb, ha]
        exact h1
      · intro a hout
        rw [h2 a (by omega), hstep, if_neg (by omega), if_neg (by omega)]
      · intro j hj1 hj2
        by_cases hji : j = i
        · subst hji
          rw [h2 (buffer + j) (by omega), hstep, if_pos rfl]
        · by_cases hji1 : j = i + 1
          · subst hji1
            rw [h2 (buffer + (i + 1)) (by omega), hstep, if_neg (by omega),
              if_pos (by omega)]
            congr 1
          · rw [h3 j (by omega) hj2, hstep, if_neg (by omega), if_neg (by omega)]
    · exact ⟨w, by simp [readLoop, hlt], fun _ _ => rfl, fun j h1 h2 => by omega⟩

/-- The read path as a copy of CPU addresses. For every configuration with
`read_size > 0` and every call with an even size that passes the three
assertions, with the source range and the buffer range inside the address
space and apart from each other, `lfs_internal_flash_read` returns
`LFS_ERR_OK`, buffer byte `j` holds the byte the device had at address
`(block * block_size + off) % 2^32 + j` for every `j < size`, and every byte
outside the buffer keeps its value. -/
theorem read_copies_cpu_addresses (fuel : Nat) (cfg : lfs_config)
    (block off buffer size : Nat) (w : World)
    (hrs : 0 < cfg.read_size) (hoff : off % cfg.read_size = 0)
    (hsize : size % cfg.read_size = 0) (hblock : block < cfg.block_count)
    (heven : size % 2 = 0) (hfuel : size ≤ 2 * fuel)
    (hsrc : (block * cfg.block_size + off) % U32 + size ≤ U32)
    (hdst : buffer + size ≤ U32)
    (hapart : buffer + size ≤ (block * cfg.block_size + off) % U32
      ∨ (block * cfg.block_size + off) % U32 + size ≤ buffer) :
    ∃ w1, lfs_internal_flash_read fuel cfg block off buffer size w
          = Result.returned LFS_ERR_OK w1
      ∧ (∀ j, j < size →
          w1.mem (buffer + j) = w.mem ((block * cfg.block_size + off) % U32 + j))
      ∧ ∀ a, a < buffer ∨ buffer + size ≤ a → w1.mem a = w.mem a := by
  obtain ⟨w1, h1, h2, h3⟩ := readLoop_copies ((block * cfg.block_size + off) % U32)
    buffer size hsrc hdst hapart heven fuel 0 w (by decide) (by omega) (by omega)
  refine ⟨w1, ?_, fun j hj => h3 j (by omega) hj, fun a ha => h2 a (by omega)⟩
  have hrs0 : ¬ cfg.read_size = 0 := by omega
  simp only [lfs_internal_flash_read, hrs0, if_false, hoff, hsize, hblock, not_true_eq_false,
    h1]

/-- C2: evaluation of the round trip with the 16 bytes of `"Hello LittleFS!"`
and its trailing null, all hardware operations succeeding. Each run returns
`LFS_ERR_OK`, yet the bytes read back are not the pattern: at block 0 the
pattern lands at `FLASH_START_ADDR` while the read fetches addresses 0 to 15;
at block 1 the erase and the program still hit block 0 and the read fetches
addresses 4096 to 4111. -/
theorem round_trip_does_not_return_pattern :
    bytesAt bootWorld writeBuffer 16 = helloPattern
    ∧ (∃ w1, roundTrip portConfig 0 writeBuffer readBuffer 16 bootWorld
          = Result.returned LFS_ERR_OK w1
        ∧ bytesAt w1 FLASH_START_ADDR 16 = helloPattern
        ∧ bytesAt w1 readBuffer 16 = List.replicate 16 0
        ∧ bytesAt w1 readBuffer 16 ≠ helloPattern)
    ∧ (∃ w1, roundTrip portConfig 1 writeBuffer readBuffer 16 bootWorld
          = Result.returned LFS_ERR_OK w1
        ∧ bytesAt w1 FLASH_START_ADDR 16 = helloPattern
        ∧ bytesAt w1 (FLASH_START_ADDR + 1 * portConfig.block_size) 16 = List.replicate 16 0
        ∧ bytesAt w1 readBuffer 16 = List.replicate 16 0
        ∧ bytesAt w1 readBuffer 16 ≠ helloPattern) :=
  ⟨by decide, ⟨_, rfl, by decide, by decide, by decide⟩,
    ⟨_, rfl, by decide, by decide, by decide, by decide⟩⟩

end LfsPort
